import Mathlib

/-!
Verification of the sitcon-relationship server (server.js) against its
natural-language specification.  The JavaScript request handlers are shallowly
embedded as pure Lean functions over an explicit database / session / rate-limit
state; machine numbers are modelled as Nat / Int / Rat.  Each claim about the
server is stated and settled as a theorem about these definitions.
-/

namespace SR

/-! ## String sanitization (server.js `sanitizeInput`, lines 431-439)

The JS code applies two global regex replacements and a trim:
  1. `/<script\b[^<]*(?:(?!<\/script>)<[^<]*)*<\/script>/gi` removes everything
     from an opening `<script` (followed by a non-word character, i.e. a word
     boundary) through the first subsequent closing `</script>`, ASCII
     case-insensitively;
  2. `/<[^>]+>/g` removes every `<`, at least one non-`>` character, `>` span;
  3. `.trim()`.
We implement the two replacements by direct scans over the character list. -/

/-- ASCII-case-insensitive prefix test: `pat` is given in lower case. -/
def startsWithCI : List Char → List Char → Bool
  | [], _ => true
  | _ :: _, [] => false
  | p :: ps, c :: cs => (c.toLower == p) && startsWithCI ps cs

def openScriptTag : List Char := (r"<script").data

def closeScriptTag : List Char := (r"</script>").data

/-- Drop everything up to and including the first case-insensitive occurrence of
`</script>`; `none` when there is no such occurrence. -/
def splitCloseScript : List Char → Option (List Char)
  | [] => none
  | c :: cs =>
    if startsWithCI closeScriptTag (c :: cs) then some ((c :: cs).drop 9)
    else splitCloseScript cs

/-- JS `\b` after `<script`: the next character must not be a word character. -/
def scriptBoundaryOk (l : List Char) : Bool :=
  match l with
  | [] => true
  | d :: _ => !(d.isAlphanum || d == '_')

/-! Both scans consume at least one character per step, so recursion on a fuel
bounded below by the list length is structural and computes the same result as
the unbounded scan; the callers pass the list length as fuel. -/

/-- First replacement of `sanitizeInput`: remove `<script ... </script>` blocks. -/
def stripScriptsFuel : Nat → List Char → List Char
  | 0, l => l
  | _ + 1, [] => []
  | fuel + 1, c :: cs =>
    if startsWithCI openScriptTag (c :: cs) && scriptBoundaryOk ((c :: cs).drop 7) then
      match splitCloseScript ((c :: cs).drop 7) with
      | some post => stripScriptsFuel fuel post
      | none => c :: stripScriptsFuel fuel cs
    else
      c :: stripScriptsFuel fuel cs

def stripScripts (l : List Char) : List Char := stripScriptsFuel l.length l

/-- Second replacement of `sanitizeInput`: remove every `<[^>]+>` span. -/
def stripTagsFuel : Nat → List Char → List Char
  | 0, l => l
  | _ + 1, [] => []
  | fuel + 1, c :: cs =>
    if c = '<' then
      let middle := cs.takeWhile (fun d => d ≠ '>')
      if 0 < middle.length ∧ middle.length < cs.length then
        stripTagsFuel fuel (cs.drop (middle.length + 1))
      else
        c :: stripTagsFuel fuel cs
    else
      c :: stripTagsFuel fuel cs

def stripTags (l : List Char) : List Char := stripTagsFuel l.length l

/-- JS `String.prototype.trim`: drop whitespace from both ends. -/
def trimJS (l : List Char) : List Char :=
  ((l.dropWhile Char.isWhitespace).reverse.dropWhile Char.isWhitespace).reverse

/-- server.js `sanitizeInput` (on string inputs; non-strings pass through
unchanged in JS and never reach these call sites thanks to the type checks). -/
def sanitizeInput (s : String) : String :=
  (trimJS (stripTags (stripScripts s.data))).asString

/-! ## JS `parseInt` and `validateId` (server.js lines 442-448)

`parseInt` with no radix argument: skip leading whitespace, read an optional
sign, switch to base 16 after a `0x`/`0X` prefix, then take the longest prefix
of digits of the base; no digits means NaN.  Huge inputs lose precision in JS
floats, but every value at or beyond 2^31 is rejected identically, so an exact
integer model decides acceptance exactly as the JS code does. -/

def digitVal (radix : Nat) (c : Char) : Option Nat :=
  let v : Nat :=
    if c.isDigit then c.toNat - 48
    else if 'a' ≤ c ∧ c ≤ 'z' then c.toNat - 87
    else if 'A' ≤ c ∧ c ≤ 'Z' then c.toNat - 55
    else 99
  if v < radix then some v else none

def digitsVal (radix : Nat) : Nat → List Char → Nat
  | acc, [] => acc
  | acc, c :: cs =>
    match digitVal radix c with
    | some v => digitsVal radix (acc * radix + v) cs
    | none => acc

/-- Value of the longest digit prefix; `none` (NaN) when it is empty. -/
def digitsPrefixVal (radix : Nat) (l : List Char) : Option Nat :=
  match l with
  | [] => none
  | c :: _ =>
    match digitVal radix c with
    | none => none
    | some _ => some (digitsVal radix 0 l)

def parseUnsignedJS (l : List Char) : Option Nat :=
  match l with
  | '0' :: c :: rest =>
    if c = 'x' ∨ c = 'X' then digitsPrefixVal 16 rest
    else digitsPrefixVal 10 l
  | _ => digitsPrefixVal 10 l

/-- JS `parseInt(s)` (radix unspecified); `none` models NaN. -/
def parseIntJS (s : String) : Option Int :=
  let l := s.data.dropWhile Char.isWhitespace
  match l with
  | '-' :: rest => (parseUnsignedJS rest).map (fun n => -(n : Int))
  | '+' :: rest => (parseUnsignedJS rest).map (fun n => (n : Int))
  | _ => (parseUnsignedJS l).map (fun n => (n : Int))

/-- server.js `validateId`: `parseInt` the input and throw (modelled as
`Except.error`) when the result is NaN, not positive, or above the INT column
bound 2147483647; otherwise return the parsed number (a positive integer,
so returned here as a `Nat`). The thrown message interpolates the raw id;
we keep a fixed marker string. -/
def validateId (id : String) : Except String Nat :=
  match parseIntJS id with
  | none => Except.error (r"invalid ID")
  | some numId =>
    if numId ≤ 0 ∨ numId > 2147483647 then Except.error (r"invalid ID")
    else Except.ok numId.toNat

/-! ## Data model (db.sql)

`persons` and `relations` rows; surrogate ids and timestamps are natural
numbers, `source` is the (non-null at the API layer) provenance text.  A
database state is the pair of tables, each a row list in storage order. -/

structure Person where
  id : Nat
  name : String
  description : String
  gender : String
  created_at : Nat
deriving DecidableEq, Repr

structure Relation where
  id : Nat
  from_person_id : Nat
  to_person_id : Nat
  source : String
  created_at : Nat
deriving DecidableEq, Repr

structure DBState where
  persons : List Person
  relations : List Relation
deriving DecidableEq, Repr

/-- `SELECT id FROM persons WHERE id = ?` returned at least one row. -/
def personExists (s : DBState) (pid : Nat) : Bool :=
  s.persons.any (fun p => p.id == pid)

/-- The bidirectional pair predicate used by addEdge / updateEdge / deleteEdge:
`(from_person_id = ? AND to_person_id = ?) OR (from_person_id = ? AND to_person_id = ?)`
with parameters `[fromId, toId, toId, fromId]`. -/
def matchPair (r : Relation) (fromId toId : Nat) : Bool :=
  (r.from_person_id == fromId && r.to_person_id == toId) ||
  (r.from_person_id == toId && r.to_person_id == fromId)

/-- Rows returned by the duplicate-relation lookup of POST /api/addEdge. -/
def findPairRelations (rels : List Relation) (fromId toId : Nat) : List Relation :=
  rels.filter (fun r => matchPair r fromId toId)

/-- `UPDATE relations SET source = ? WHERE id = ?`. -/
def updateRelationSource (rels : List Relation) (relId : Nat) (src : String) : List Relation :=
  rels.map (fun r => if r.id == relId then { r with source := src } else r)

/-! ## POST /api/addEdge (server.js lines 965-1068)

The handler body after the middleware chain: validate both ids (a thrown
validation error is reported by the catch-all as a 500), sanitize the
provenance text (default empty), reject self-loops with 400, 404 on a missing
endpoint, then either update the first row found for the unordered pair
(action `updated`) or insert a new directed row (action `created`).  The id a
fresh row receives from MySQL (`result.insertId`) and its timestamp are passed
in as `newId` / `nowTs`. -/

inductive EdgeResp where
  | invalidId
  | selfLoop
  | personNotFound (id : Nat)
  | ok (id fromId toId : Nat) (source action : String)
deriving DecidableEq, Repr

def actionUpdated : String := r"updated"

def actionCreated : String := r"created"

def addEdgeCore (s : DBState) (fromId toId : Nat) (cleanSource : String) (newId nowTs : Nat) :
    EdgeResp × DBState :=
  if fromId == toId then (EdgeResp.selfLoop, s)
  else if !(personExists s fromId) then (EdgeResp.personNotFound fromId, s)
  else if !(personExists s toId) then (EdgeResp.personNotFound toId, s)
  else
    match (findPairRelations s.relations fromId toId).head? with
    | some existingRelation =>
      (EdgeResp.ok existingRelation.id fromId toId cleanSource actionUpdated,
       { s with relations := updateRelationSource s.relations existingRelation.id cleanSource })
    | none =>
      (EdgeResp.ok newId fromId toId cleanSource actionCreated,
       { s with relations := s.relations ++ [⟨newId, fromId, toId, cleanSource, nowTs⟩] })

def addEdgeHandler (s : DBState) (fromStr toStr : String) (source : Option String)
    (newId nowTs : Nat) : EdgeResp × DBState :=
  match validateId fromStr with
  | Except.error _ => (EdgeResp.invalidId, s)
  | Except.ok fromId =>
    match validateId toStr with
    | Except.error _ => (EdgeResp.invalidId, s)
    | Except.ok toId =>
      addEdgeCore s fromId toId (sanitizeInput (source.getD (r""))) newId nowTs

/-! ## DELETE /api/deleteEdge (server.js lines 1131-1183) -/

inductive DeleteResp where
  | invalidId
  | selfLoop
  | notFound (fromId toId : Nat)
  | deleted (rows : Nat)
deriving DecidableEq, Repr

def deleteEdgeCore (s : DBState) (fromId toId : Nat) : DeleteResp × DBState :=
  if fromId == toId then (DeleteResp.selfLoop, s)
  else
    let remaining := s.relations.filter (fun r => !(matchPair r fromId toId))
    let affectedRows := s.relations.length - remaining.length
    if affectedRows == 0 then (DeleteResp.notFound fromId toId, s)
    else (DeleteResp.deleted affectedRows, { s with relations := remaining })

def deleteEdgeHandler (s : DBState) (fromStr toStr : String) : DeleteResp × DBState :=
  match validateId fromStr with
  | Except.error _ => (DeleteResp.invalidId, s)
  | Except.ok fromId =>
    match validateId toStr with
    | Except.error _ => (DeleteResp.invalidId, s)
    | Except.ok toId => deleteEdgeCore s fromId toId

/-! ## POST /api/addNode (server.js lines 905-963)

Handler body after middleware: apply the destructuring defaults, sanitize name
and description, coerce the gender to the enum (falling back to `unknown`),
409 when a person with the sanitized name already exists, otherwise insert. -/

inductive NodeResp where
  | conflict (name : String)
  | ok (id : Nat) (name description gender : String)
deriving DecidableEq, Repr

def validGenders : List String := [r"male", r"female", r"femboy", r"unknown"]

def addNodeHandler (s : DBState) (name : String) (description gender : Option String)
    (newId nowTs : Nat) : NodeResp × DBState :=
  let description := description.getD (r"")
  let gender := gender.getD (r"unknown")
  let cleanName := sanitizeInput name
  let cleanDescription := sanitizeInput description
  let cleanGender := if validGenders.contains gender then gender else (r"unknown")
  if 0 < (s.persons.filter (fun p => p.name == cleanName)).length then
    (NodeResp.conflict cleanName, s)
  else
    (NodeResp.ok newId cleanName cleanDescription cleanGender,
     { s with persons := s.persons ++ [⟨newId, cleanName, cleanDescription, cleanGender, nowTs⟩] })

/-! ## GET /api/graph (server.js lines 452-517)

The node/edge projection.  The JS code keys its `Set` of connected ids by the
decimal string of the numeric id; since that conversion is injective we keep
the numeric ids (the JSON response prints them in decimal).  A relation counts
only when both endpoint ids are truthy (non-zero), a person only with truthy
id and name and an incident counted relation. -/

structure GNode where
  id : Nat
  label : String
deriving DecidableEq, Repr

structure GEdge where
  id : Nat
  fromId : Nat
  toId : Nat
  source : String
deriving DecidableEq, Repr

def validRelations (rels : List Relation) : List Relation :=
  rels.filter (fun r => r.from_person_id != 0 && r.to_person_id != 0)

/-- Membership in the `connectedPersonIds` set. -/
def isConnectedId (rels : List Relation) (pid : Nat) : Bool :=
  (validRelations rels).any (fun r => r.from_person_id == pid || r.to_person_id == pid)

def graphNodes (s : DBState) : List GNode :=
  (s.persons.filter (fun p => p.id != 0 && p.name != (r"") && isConnectedId s.relations p.id)).map
    (fun p => ⟨p.id, p.name⟩)

def graphEdges (s : DBState) : List GEdge :=
  (validRelations s.relations).map
    (fun r => ⟨r.id, r.from_person_id, r.to_person_id, r.source⟩)

/-! ## Admin sessions (server.js lines 11-13, 92-125, 185-207)

The in-memory `sessions` map is modelled as an association list from token to
session record.  `Date.now()` is passed in as `now`; JS subtraction of a later
`createdAt` would be negative and hence below the timeout, which truncated
`Nat` subtraction (0) reproduces. -/

structure Session where
  username : String
  createdAt : Nat
deriving DecidableEq, Repr

/-- `SESSION_TIMEOUT = 24 * 60 * 60 * 1000`. -/
def sessionTimeout : Nat := 24 * 60 * 60 * 1000

inductive AuthResp where
  | notLoggedIn
  | invalidSession
  | expiredSession
  | ok (username : String)
deriving DecidableEq, Repr

/-- `requireAdminSession`: the `x-session-token` header is `none` when absent,
and an empty header string is falsy in the `!token` guard. -/
def requireAdminSession (sessions : List (String × Session)) (token : Option String)
    (now : Nat) : AuthResp × List (String × Session) :=
  match token with
  | none => (AuthResp.notLoggedIn, sessions)
  | some t =>
    if t == (r"") then (AuthResp.notLoggedIn, sessions)
    else
      match sessions.find? (fun p => p.1 == t) with
      | none => (AuthResp.invalidSession, sessions)
      | some p =>
        if now - p.2.createdAt > sessionTimeout then
          (AuthResp.expiredSession, sessions.filter (fun q => q.1 != t))
        else (AuthResp.ok p.2.username, sessions)

inductive LogoutResp where
  | success
deriving DecidableEq, Repr

/-- POST /api/admin/logout: no auth middleware; delete the supplied token when
truthy and reply success unconditionally. -/
def logoutHandler (sessions : List (String × Session)) (token : Option String) :
    LogoutResp × List (String × Session) :=
  match token with
  | none => (LogoutResp.success, sessions)
  | some t =>
    if t == (r"") then (LogoutResp.success, sessions)
    else (LogoutResp.success, sessions.filter (fun q => q.1 != t))

/-! ## Rate limiting (server.js lines 398-428)

Each `rateLimit(windowMs, maxRequests)` instance closes over its own map from
client address to recorded timestamps. -/

inductive RLResp where
  | limited (retryAfter : Nat)
  | allowed
deriving DecidableEq, Repr

def getAssoc (m : List (String × List Nat)) (k : String) : List Nat :=
  match m.find? (fun p => p.1 == k) with
  | some p => p.2
  | none => []

def setAssoc (m : List (String × List Nat)) (k : String) (v : List Nat) :
    List (String × List Nat) :=
  if m.any (fun p => p.1 == k) then m.map (fun p => if p.1 == k then (k, v) else p)
  else m ++ [(k, v)]

/-- One request through the rate-limit middleware.  On a 429 the code replies
`retryAfter: Math.ceil(windowMs / 1000)`, modelled exactly as
`(windowMs + 999) / 1000` in Nat division. -/
def rateLimitStep (windowMs maxRequests : Nat) (requests : List (String × List Nat))
    (clientId : String) (now : Nat) : RLResp × List (String × List Nat) :=
  let requests₁ := if requests.any (fun p => p.1 == clientId) then requests
                   else requests ++ [(clientId, [])]
  let clientRequests := getAssoc requests₁ clientId
  let validRequests := clientRequests.filter (fun t => now - t < windowMs)
  let requests₂ := setAssoc requests₁ clientId validRequests
  if maxRequests ≤ validRequests.length then
    (RLResp.limited ((windowMs + 999) / 1000), requests₂)
  else
    (RLResp.allowed, setAssoc requests₂ clientId (validRequests ++ [now]))

/-! ## validateInput middleware (server.js lines 297-356)

Request bodies are JSON values: strings, numbers (modelled as rationals),
booleans and null; an absent field is `none` on lookup.  The declarative
schema drives four check families whose violation messages (Chinese template
strings in the JS) are modelled structurally. -/

inductive JSValue where
  | str (s : String)
  | num (q : ℚ)
  | boolean (b : Bool)
  | null
deriving DecidableEq, Repr

def typeofJS : JSValue → String
  | JSValue.str _ => r"string"
  | JSValue.num _ => r"number"
  | JSValue.boolean _ => r"boolean"
  | JSValue.null => r"object"

abbrev Body := List (String × JSValue)

def bodyGet (body : Body) (f : String) : Option JSValue :=
  match body.find? (fun p => p.1 == f) with
  | some p => some p.2
  | none => none

/-! JS `parseFloat`: skip leading whitespace, optional sign, decimal digits
with an optional fraction and an optional exponent; the longest valid prefix
counts and an empty mantissa is NaN (`none`).  `Infinity` literals and float
rounding are outside this rational model; no claim depends on them. -/

def takeDigits (l : List Char) : List Char := l.takeWhile Char.isDigit

def dropDigits (l : List Char) : List Char := l.dropWhile Char.isDigit

def digitsToNat (l : List Char) : Nat :=
  l.foldl (fun acc c => acc * 10 + (c.toNat - 48)) 0

/-- Exponent suffix value; an exponent with no digits is not part of the
parsed prefix, so it contributes factor 10^0. -/
def expVal (l : List Char) : Int :=
  match l with
  | '-' :: rest =>
    let d := takeDigits rest
    if d.length == 0 then 0 else -(digitsToNat d : Int)
  | '+' :: rest =>
    let d := takeDigits rest
    if d.length == 0 then 0 else (digitsToNat d : Int)
  | _ =>
    let d := takeDigits l
    if d.length == 0 then 0 else (digitsToNat d : Int)

def parseFloatJS (s : String) : Option ℚ :=
  let l₀ := s.data.dropWhile Char.isWhitespace
  let signAndRest : ℚ × List Char :=
    match l₀ with
    | '-' :: rest => (-1, rest)
    | '+' :: rest => (1, rest)
    | _ => (1, l₀)
  let sign := signAndRest.1
  let l := signAndRest.2
  let intPart := takeDigits l
  let l₁ := dropDigits l
  let fracAndRest : List Char × List Char :=
    match l₁ with
    | '.' :: rest => (takeDigits rest, dropDigits rest)
    | _ => ([], l₁)
  let fracPart := fracAndRest.1
  let l₂ := fracAndRest.2
  if intPart.length == 0 && fracPart.length == 0 then none
  else
    let mantissa : ℚ :=
      (digitsToNat intPart : ℚ) + (digitsToNat fracPart : ℚ) / ((10 : ℚ) ^ fracPart.length)
    let e : Int :=
      match l₂ with
      | 'e' :: rest => expVal rest
      | 'E' :: rest => expVal rest
      | _ => 0
    some (sign * mantissa * (10 : ℚ) ^ e)

/-- `parseFloat(value)` after JS string coercion of the body value. -/
def jsToNumber : JSValue → Option ℚ
  | JSValue.str s => parseFloatJS s
  | JSValue.num q => some q
  | JSValue.boolean _ => none
  | JSValue.null => none

structure NumRange where
  min : Option ℚ
  max : Option ℚ
deriving DecidableEq, Repr

structure Schema where
  required : List String
  types : List (String × String)
  maxLength : List (String × Nat)
  numberRange : List (String × NumRange)

inductive VErr where
  | missingRequired (field : String)
  | typeMismatch (field expected actual : String)
  | tooLong (field : String) (maxLen : Nat)
  | notANumber (field : String)
  | outOfRange (field : String)
deriving DecidableEq, Repr

/-- `req.body[field] === undefined || === null || === ''`. -/
def isMissing : Option JSValue → Bool
  | none => true
  | some JSValue.null => true
  | some (JSValue.str s) => s == (r"")
  | some _ => false

def requiredErrors (schema : Schema) (body : Body) : List VErr :=
  schema.required.filterMap (fun f =>
    if isMissing (bodyGet body f) then some (VErr.missingRequired f) else none)

def typeErrors (schema : Schema) (body : Body) : List VErr :=
  schema.types.filterMap (fun ft =>
    match bodyGet body ft.1 with
    | some v => if typeofJS v != ft.2 then some (VErr.typeMismatch ft.1 ft.2 (typeofJS v)) else none
    | none => none)

/-- `req.body[field] && typeof req.body[field] === 'string' && length > maxLen`:
only a truthy (non-empty) string can violate the length limit. -/
def maxLengthErrors (schema : Schema) (body : Body) : List VErr :=
  schema.maxLength.filterMap (fun fm =>
    match bodyGet body fm.1 with
    | some (JSValue.str str) =>
      if str != (r"") && fm.2 < str.length then some (VErr.tooLong fm.1 fm.2) else none
    | _ => none)

/-- `(range.min !== undefined && num < range.min) || (range.max !== undefined && num > range.max)`. -/
def outOfRangeQ (nr : NumRange) (q : ℚ) : Bool :=
  (match nr.min with | some m => decide (q < m) | none => false) ||
  (match nr.max with | some m => decide (m < q) | none => false)

def rangeErrors (schema : Schema) (body : Body) : List VErr :=
  schema.numberRange.filterMap (fun fr =>
    match bodyGet body fr.1 with
    | none => none
    | some v =>
      match jsToNumber v with
      | none => some (VErr.notANumber fr.1)
      | some q => if outOfRangeQ fr.2 q then some (VErr.outOfRange fr.1) else none)

def validateInputErrors (schema : Schema) (body : Body) : List VErr :=
  requiredErrors schema body ++ typeErrors schema body ++
    maxLengthErrors schema body ++ rangeErrors schema body

inductive ValidateResp where
  | reject (details : List VErr)
  | pass
deriving DecidableEq, Repr

def validateInput (schema : Schema) (body : Body) : ValidateResp :=
  let errors := validateInputErrors schema body
  if 0 < errors.length then ValidateResp.reject errors else ValidateResp.pass

/-! ## Helper lemmas -/

theorem matchPair_swap (r : Relation) (a b : Nat) : matchPair r b a = matchPair r a b := by
  unfold matchPair
  rw [Bool.or_comm]

theorem findPairRelations_swap (rels : List Relation) (a b : Nat) :
    findPairRelations rels b a = findPairRelations rels a b := by
  unfold findPairRelations
  exact List.filter_congr (fun r _ => matchPair_swap r a b)

theorem addEdgeCore_persons (s : DBState) (a b : Nat) (src : String) (n t : Nat) :
    ((addEdgeCore s a b src n t).2).persons = s.persons := by
  unfold addEdgeCore
  split
  · rfl
  · split
    · rfl
    · split
      · rfl
      · split <;> rfl

theorem findPair_update (rels : List Relation) (rid : Nat) (src : String) (a b : Nat) :
    findPairRelations (updateRelationSource rels rid src) a b =
      (findPairRelations rels a b).map
        (fun r => if r.id == rid then { r with source := src } else r) := by
  unfold findPairRelations updateRelationSource
  rw [List.filter_map]
  congr 1
  refine List.filter_congr (fun x _ => ?_)
  simp only [Function.comp]
  by_cases h : (x.id == rid) = true
  · rw [if_pos h]
    rfl
  · rw [if_neg h]

theorem findPairRelations_append (l₁ l₂ : List Relation) (a b : Nat) :
    findPairRelations (l₁ ++ l₂) a b = findPairRelations l₁ a b ++ findPairRelations l₂ a b :=
  List.filter_append _ _

theorem eq_singleton_of_length_le_one {α : Type} {l : List α} {x : α}
    (hlen : l.length ≤ 1) (hhead : l.head? = some x) : l = [x] := by
  cases l with
  | nil => simp at hhead
  | cons y t =>
    simp only [List.head?_cons, Option.some.injEq] at hhead
    subst hhead
    cases t with
    | nil => rfl
    | cons z u => simp at hlen

theorem all_of_filter_length_eq {α : Type} (p : α → Bool) :
    ∀ l : List α, (l.filter p).length = l.length → ∀ x ∈ l, p x = true := by
  intro l
  induction l with
  | nil => intro _ x hx; simp at hx
  | cons a t ih =>
    intro h x hx
    rw [List.filter_cons] at h
    by_cases hp : p a = true
    · rw [if_pos hp] at h
      simp only [List.length_cons, Nat.add_right_cancel_iff] at h
      rcases List.mem_cons.mp hx with rfl | hxt
      · exact hp
      · exact ih h x hxt
    · rw [if_neg hp] at h
      have hle := List.length_filter_le p t
      simp only [List.length_cons] at h
      omega

/-! ## Theorems -/

/-- C10: `validateId` accepts every string whose JS `parseInt` prefix parse
yields an integer in [1, 2147483647] and returns that integer, it rejects
exactly the strings whose parse is NaN, not positive, or above 2147483647,
and in particular the non-canonical inputs "3.9" and "7abc" are accepted as
3 and 7 respectively. -/
theorem c10_validateId_prefix_parse (s : String) :
    (∀ n : Int, parseIntJS s = some n → 1 ≤ n → n ≤ 2147483647 →
       validateId s = Except.ok n.toNat ∧ (n.toNat : Int) = n)
  ∧ (∀ n : Int, parseIntJS s = some n → (n ≤ 0 ∨ 2147483647 < n) →
       validateId s = Except.error (r"invalid ID"))
  ∧ (parseIntJS s = none → validateId s = Except.error (r"invalid ID"))
  ∧ validateId (r"3.9") = Except.ok 3 ∧ validateId (r"7abc") = Except.ok 7 := by
  refine ⟨?_, ?_, ?_, by rfl, by rfl⟩
  · intro n h h1 h2
    have hcond : ¬(n ≤ 0 ∨ 2147483647 < n) := by omega
    simp only [validateId, h]
    rw [if_neg hcond]
    exact ⟨rfl, Int.toNat_of_nonneg (by omega)⟩
  · intro n h hcond
    simp only [validateId, h]
    rw [if_pos hcond]
  · intro h
    simp only [validateId, h]

/-- C10 witness: a concrete accepted id. -/
theorem c10_validateId_prefix_parse_witness :
    validateId (r"42") = Except.ok ((42 : Int)).toNat ∧ (((42 : Int)).toNat : Int) = 42 :=
  (c10_validateId_prefix_parse (r"42")).1 42 (by decide) (by decide) (by decide)

/-- C2: with any id string that passes `validateId`, POST /api/addEdge with
equal `from` and `to` answers the self-loop 400 before any person lookup and
leaves the database untouched, whether or not such a person exists; moreover
no run of the handler ever produces a relation row with
`from_person_id = to_person_id` that was not already stored. -/
theorem c2_self_loop_rejected :
    (∀ (s : DBState) (idStr : String) (source : Option String) (newId nowTs : Nat) (a : Nat),
       validateId idStr = Except.ok a →
       addEdgeHandler s idStr idStr source newId nowTs = (EdgeResp.selfLoop, s))
  ∧ (∀ (s : DBState) (fromStr toStr : String) (source : Option String) (newId nowTs : Nat),
       ∀ r ∈ (addEdgeHandler s fromStr toStr source newId nowTs).2.relations,
         r.from_person_id = r.to_person_id →
         ∃ r₀ ∈ s.relations, r₀.id = r.id ∧ r₀.from_person_id = r.from_person_id ∧
           r₀.to_person_id = r.to_person_id ∧ r₀.created_at = r.created_at) := by
  constructor
  · intro s idStr source newId nowTs a hv
    simp only [addEdgeHandler, hv]
    simp [addEdgeCore]
  · intro s fromStr toStr source newId nowTs r hr hself
    unfold addEdgeHandler at hr
    split at hr
    · exact ⟨r, hr, rfl, rfl, rfl, rfl⟩
    · rename_i fromId _
      split at hr
      · exact ⟨r, hr, rfl, rfl, rfl, rfl⟩
      · rename_i toId _
        unfold addEdgeCore at hr
        split at hr
        · exact ⟨r, hr, rfl, rfl, rfl, rfl⟩
        · rename_i hne
          split at hr
          · exact ⟨r, hr, rfl, rfl, rfl, rfl⟩
          · split at hr
            · exact ⟨r, hr, rfl, rfl, rfl, rfl⟩
            · split at hr
              · rename_i er hhead
                simp only [updateRelationSource, List.mem_map] at hr
                obtain ⟨x, hx, hxr⟩ := hr
                by_cases hid : (x.id == er.id) = true
                · rw [if_pos hid] at hxr
                  subst hxr
                  exact ⟨x, hx, rfl, rfl, rfl, rfl⟩
                · rw [if_neg hid] at hxr
                  subst hxr
                  exact ⟨x, hx, rfl, rfl, rfl, rfl⟩
              · simp only [List.mem_append, List.mem_singleton] at hr
                rcases hr with hmem | hnew
                · exact ⟨r, hmem, rfl, rfl, rfl, rfl⟩
                · subst hnew
                  exact absurd hself (by simpa using hne)

/-- C2 witness: a concrete self-loop request on a one-person database. -/
theorem c2_self_loop_rejected_witness :
    addEdgeHandler ⟨[⟨3, r"Ann", r"", r"unknown", 0⟩], []⟩ (r"3") (r"3") none 9 7 =
      (EdgeResp.selfLoop, ⟨[⟨3, r"Ann", r"", r"unknown", 0⟩], []⟩) :=
  c2_self_loop_rejected.1 ⟨[⟨3, r"Ann", r"", r"unknown", 0⟩], []⟩ (r"3") none 9 7 3 (by rfl)

/-- C1: on a database obeying the at-most-one-row-per-unordered-pair invariant,
with A and B distinct existing persons, addEdge(A,B) followed by addEdge(B,A)
never leaves two relation rows for the unordered pair: the second call takes
the update branch of the upsert (action `updated`, overwriting the stored
provenance with its own), inserts nothing, and exactly one row for the pair
remains. -/
theorem c1_addEdge_upsert_no_duplicate (s : DBState) (a b : Nat) (src1 src2 : String)
    (n1 t1 n2 t2 : Nat) (hab : a ≠ b)
    (ha : personExists s a = true) (hb : personExists s b = true)
    (hinv : (findPairRelations s.relations a b).length ≤ 1) :
    ∃ rid,
      (addEdgeCore (addEdgeCore s a b src1 n1 t1).2 b a src2 n2 t2).1 =
        EdgeResp.ok rid b a src2 actionUpdated
    ∧ (addEdgeCore (addEdgeCore s a b src1 n1 t1).2 b a src2 n2 t2).2.relations.length =
        (addEdgeCore s a b src1 n1 t1).2.relations.length
    ∧ (findPairRelations
        (addEdgeCore (addEdgeCore s a b src1 n1 t1).2 b a src2 n2 t2).2.relations a b).length = 1
    ∧ (∀ r ∈ findPairRelations
          (addEdgeCore (addEdgeCore s a b src1 n1 t1).2 b a src2 n2 t2).2.relations a b,
          r.source = src2) := by
  have hne : (a == b) = false := by
    rw [beq_eq_false_iff_ne]
    exact hab
  have hone : ∃ r1, findPairRelations (addEdgeCore s a b src1 n1 t1).2.relations a b = [r1] := by
    cases hh : (findPairRelations s.relations a b).head? with
    | none =>
      have hnil : findPairRelations s.relations a b = [] := List.head?_eq_none_iff.mp hh
      refine ⟨⟨n1, a, b, src1, t1⟩, ?_⟩
      simp only [addEdgeCore, hne, ha, hb, hh, Bool.false_eq_true, if_false, Bool.not_true,
        Bool.false_eq_true]
      rw [findPairRelations_append, hnil]
      simp [findPairRelations, matchPair]
    | some r0 =>
      have hsing : findPairRelations s.relations a b = [r0] :=
        eq_singleton_of_length_le_one hinv hh
      refine ⟨{ r0 with source := src1 }, ?_⟩
      simp only [addEdgeCore, hne, ha, hb, hh, Bool.false_eq_true, if_false, Bool.not_true]
      rw [findPair_update, hsing]
      simp
  obtain ⟨r1, hr1⟩ := hone
  have hpersons := addEdgeCore_persons s a b src1 n1 t1
  set s₁ := (addEdgeCore s a b src1 n1 t1).2 with hs₁
  have ha' : personExists s₁ a = true := by
    unfold personExists
    rw [hpersons]
    exact ha
  have hb' : personExists s₁ b = true := by
    unfold personExists
    rw [hpersons]
    exact hb
  have hh2 : (findPairRelations s₁.relations b a).head? = some r1 := by
    rw [findPairRelations_swap, hr1]
    rfl
  have hne2 : (b == a) = false := by
    rw [beq_eq_false_iff_ne]
    exact Ne.symm hab
  refine ⟨r1.id, ?_, ?_, ?_, ?_⟩
  · simp only [addEdgeCore, hne2, hb', ha', hh2, Bool.false_eq_true, if_false, Bool.not_true]
  · simp only [addEdgeCore, hne2, hb', ha', hh2, Bool.false_eq_true, if_false, Bool.not_true]
    unfold updateRelationSource
    exact List.length_map _ _
  · simp only [addEdgeCore, hne2, hb', ha', hh2, Bool.false_eq_true, if_false, Bool.not_true]
    rw [findPair_update, hr1]
    simp
  · simp only [addEdgeCore, hne2, hb', ha', hh2, Bool.false_eq_true, if_false, Bool.not_true]
    rw [findPair_update, hr1]
    simp

/-- C1 witness: two persons, empty relations table, add 1→2 then 2→1. -/
theorem c1_addEdge_upsert_no_duplicate_witness :
    ∃ rid,
      (addEdgeCore (addEdgeCore ⟨[⟨1, r"A", r"", r"unknown", 0⟩, ⟨2, r"B", r"", r"unknown", 0⟩],
          []⟩ 1 2 (r"x") 7 50).2 2 1 (r"y") 8 60).1 = EdgeResp.ok rid 2 1 (r"y") actionUpdated
    ∧ (addEdgeCore (addEdgeCore ⟨[⟨1, r"A", r"", r"unknown", 0⟩, ⟨2, r"B", r"", r"unknown", 0⟩],
          []⟩ 1 2 (r"x") 7 50).2 2 1 (r"y") 8 60).2.relations.length =
        (addEdgeCore ⟨[⟨1, r"A", r"", r"unknown", 0⟩, ⟨2, r"B", r"", r"unknown", 0⟩],
          []⟩ 1 2 (r"x") 7 50).2.relations.length
    ∧ (findPairRelations
        (addEdgeCore (addEdgeCore ⟨[⟨1, r"A", r"", r"unknown", 0⟩, ⟨2, r"B", r"", r"unknown", 0⟩],
          []⟩ 1 2 (r"x") 7 50).2 2 1 (r"y") 8 60).2.relations 1 2).length = 1
    ∧ (∀ r ∈ findPairRelations
          (addEdgeCore (addEdgeCore ⟨[⟨1, r"A", r"", r"unknown", 0⟩, ⟨2, r"B", r"", r"unknown", 0⟩],
            []⟩ 1 2 (r"x") 7 50).2 2 1 (r"y") 8 60).2.relations 1 2,
          r.source = (r"y")) :=
  c1_addEdge_upsert_no_duplicate ⟨[⟨1, r"A", r"", r"unknown", 0⟩, ⟨2, r"B", r"", r"unknown", 0⟩], []⟩
    1 2 (r"x") (r"y") 7 50 8 60 (by decide) (by decide) (by decide) (by decide)

/-- C9: when addEdge finds the stored row for the unordered pair in the
reversed direction (stored B→A, caller sent A→B), the update changes only the
`source` column of that row — its id, stored direction and created_at are
kept — other rows are untouched and no row is added or removed, while the JSON
response reports the caller-supplied direction A→B. -/
theorem c9_update_touches_only_source (s : DBState) (a b : Nat) (r0 : Relation) (src : String)
    (n t : Nat) (hab : a ≠ b)
    (ha : personExists s a = true) (hb : personExists s b = true)
    (hhead : (findPairRelations s.relations a b).head? = some r0)
    (hfrom : r0.from_person_id = b) (hto : r0.to_person_id = a) :
    (addEdgeCore s a b src n t).1 = EdgeResp.ok r0.id a b src actionUpdated
  ∧ (∃ x ∈ (addEdgeCore s a b src n t).2.relations,
       x.id = r0.id ∧ x.from_person_id = b ∧ x.to_person_id = a ∧
       x.created_at = r0.created_at ∧ x.source = src)
  ∧ (∀ x ∈ s.relations, x.id ≠ r0.id → x ∈ (addEdgeCore s a b src n t).2.relations)
  ∧ (addEdgeCore s a b src n t).2.relations.length = s.relations.length
  ∧ (addEdgeCore s a b src n t).2.persons = s.persons := by
  have hne : (a == b) = false := by
    rw [beq_eq_false_iff_ne]
    exact hab
  have hred : addEdgeCore s a b src n t =
      (EdgeResp.ok r0.id a b src actionUpdated,
       { s with relations := updateRelationSource s.relations r0.id src }) := by
    simp only [addEdgeCore, hne, ha, hb, hhead, Bool.false_eq_true, if_false, Bool.not_true]
  rw [hred]
  refine ⟨rfl, ?_, ?_, ?_, rfl⟩
  · have hmem : r0 ∈ s.relations := by
      have := List.mem_of_mem_head? hhead
      exact (List.mem_filter.mp this).1
    refine ⟨{ r0 with source := src }, ?_, rfl, hfrom, hto, rfl, rfl⟩
    have := List.mem_map_of_mem
      (fun r => if (r.id == r0.id) = true then { r with source := src } else r) hmem
    simpa [updateRelationSource] using this
  · intro x hx hxid
    have hne' : (x.id == r0.id) = false := by
      rw [beq_eq_false_iff_ne]
      exact hxid
    have := List.mem_map_of_mem
      (fun r => if (r.id == r0.id) = true then { r with source := src } else r) hx
    simp only [hne', Bool.false_eq_true, if_false] at this
    simpa [updateRelationSource] using this
  · exact List.length_map _ _

/-- C9 witness: the stored row is 2→1, the caller sends 1→2. -/
theorem c9_update_touches_only_source_witness :
    (addEdgeCore ⟨[⟨1, r"A", r"", r"unknown", 0⟩, ⟨2, r"B", r"", r"unknown", 0⟩],
        [⟨10, 2, 1, r"old", 5⟩]⟩ 1 2 (r"new") 9 9).1 =
      EdgeResp.ok 10 1 2 (r"new") actionUpdated
  ∧ (∃ x ∈ (addEdgeCore ⟨[⟨1, r"A", r"", r"unknown", 0⟩, ⟨2, r"B", r"", r"unknown", 0⟩],
        [⟨10, 2, 1, r"old", 5⟩]⟩ 1 2 (r"new") 9 9).2.relations,
       x.id = 10 ∧ x.from_person_id = 2 ∧ x.to_person_id = 1 ∧
       x.created_at = 5 ∧ x.source = (r"new"))
  ∧ (∀ x ∈ ([⟨10, 2, 1, r"old", 5⟩] : List Relation), x.id ≠ 10 →
       x ∈ (addEdgeCore ⟨[⟨1, r"A", r"", r"unknown", 0⟩, ⟨2, r"B", r"", r"unknown", 0⟩],
        [⟨10, 2, 1, r"old", 5⟩]⟩ 1 2 (r"new") 9 9).2.relations)
  ∧ (addEdgeCore ⟨[⟨1, r"A", r"", r"unknown", 0⟩, ⟨2, r"B", r"", r"unknown", 0⟩],
        [⟨10, 2, 1, r"old", 5⟩]⟩ 1 2 (r"new") 9 9).2.relations.length =
      ([⟨10, 2, 1, r"old", 5⟩] : List Relation).length
  ∧ (addEdgeCore ⟨[⟨1, r"A", r"", r"unknown", 0⟩, ⟨2, r"B", r"", r"unknown", 0⟩],
        [⟨10, 2, 1, r"old", 5⟩]⟩ 1 2 (r"new") 9 9).2.persons =
      [⟨1, r"A", r"", r"unknown", 0⟩, ⟨2, r"B", r"", r"unknown", 0⟩] :=
  c9_update_touches_only_source
    ⟨[⟨1, r"A", r"", r"unknown", 0⟩, ⟨2, r"B", r"", r"unknown", 0⟩], [⟨10, 2, 1, r"old", 5⟩]⟩
    1 2 ⟨10, 2, 1, r"old", 5⟩ (r"new") 9 9
    (by decide) (by decide) (by decide) (by decide) (by decide) (by decide)

/-- C3: with distinct valid ids A and B, DELETE /api/deleteEdge removes every
relation row stored in either direction of the pair (no row matching either
direction survives); when no such row exists in either direction it answers
404 naming the two ids and leaves the database unchanged; persons are never
deleted. -/
theorem c3_deleteEdge_either_direction (s : DBState) (fromStr toStr : String) (a b : Nat)
    (hva : validateId fromStr = Except.ok a) (hvb : validateId toStr = Except.ok b)
    (hab : a ≠ b) :
    ((∃ r ∈ s.relations, matchPair r a b = true) →
       (deleteEdgeHandler s fromStr toStr).1 =
          DeleteResp.deleted (s.relations.length -
            (s.relations.filter (fun r => !(matchPair r a b))).length)
       ∧ (deleteEdgeHandler s fromStr toStr).2.relations =
            s.relations.filter (fun r => !(matchPair r a b)))
  ∧ ((∀ r ∈ s.relations, matchPair r a b = false) →
       deleteEdgeHandler s fromStr toStr = (DeleteResp.notFound a b, s))
  ∧ (∀ r : Relation,
       ((r.from_person_id = a ∧ r.to_person_id = b) ∨
        (r.from_person_id = b ∧ r.to_person_id = a)) →
       r ∉ (deleteEdgeHandler s fromStr toStr).2.relations)
  ∧ (deleteEdgeHandler s fromStr toStr).2.persons = s.persons := by
  have hne : (a == b) = false := by
    rw [beq_eq_false_iff_ne]
    exact hab
  have hh : deleteEdgeHandler s fromStr toStr = deleteEdgeCore s a b := by
    simp only [deleteEdgeHandler, hva, hvb]
  by_cases hall : ∀ r ∈ s.relations, matchPair r a b = false
  · have hself : s.relations.filter (fun r => !(matchPair r a b)) = s.relations :=
      List.filter_eq_self.mpr (fun r hr => by simp [hall r hr])
    have hred : deleteEdgeCore s a b = (DeleteResp.notFound a b, s) := by
      unfold deleteEdgeCore
      rw [if_neg (by simp [hne])]
      rw [hself]
      simp
    rw [hh, hred]
    refine ⟨?_, fun _ => rfl, ?_, rfl⟩
    · rintro ⟨r, hr, hmr⟩
      rw [hall r hr] at hmr
      exact absurd hmr (by simp)
    · intro r hdir hmem
      have : matchPair r a b = true := by
        rcases hdir with ⟨h1, h2⟩ | ⟨h1, h2⟩ <;> simp [matchPair, h1, h2]
      rw [hall r hmem] at this
      exact absurd this (by simp)
  · have hlt : (s.relations.filter (fun r => !(matchPair r a b))).length < s.relations.length := by
      rcases Nat.lt_or_ge (s.relations.filter (fun r => !(matchPair r a b))).length
        s.relations.length with h | h
      · exact h
      · exfalso
        have heq : (s.relations.filter (fun r => !(matchPair r a b))).length =
            s.relations.length :=
          Nat.le_antisymm (List.length_filter_le _ _) h
        have := all_of_filter_length_eq _ _ heq
        exact hall (fun r hr => by simpa using this r hr)
    have hred : deleteEdgeCore s a b =
        (DeleteResp.deleted (s.relations.length -
           (s.relations.filter (fun r => !(matchPair r a b))).length),
         { s with relations := s.relations.filter (fun r => !(matchPair r a b)) }) := by
      unfold deleteEdgeCore
      rw [if_neg (by simp [hne])]
      rw [if_neg (by simp; omega)]
    rw [hh, hred]
    refine ⟨fun _ => ⟨rfl, rfl⟩, ?_, ?_, rfl⟩
    · intro hall'
      exact absurd hall' hall
    · intro r hdir hmem
      have hmr : matchPair r a b = true := by
        rcases hdir with ⟨h1, h2⟩ | ⟨h1, h2⟩ <;> simp [matchPair, h1, h2]
      have := (List.mem_filter.mp hmem).2
      rw [hmr] at this
      exact absurd this (by simp)

/-- C3 witness: the stored row is 2→1 and the request names the pair as (1,2);
a second database without the row answers 404. -/
theorem c3_deleteEdge_either_direction_witness :
    ((∃ r ∈ ([⟨10, 2, 1, r"old", 5⟩] : List Relation), matchPair r 1 2 = true) →
       (deleteEdgeHandler ⟨[], [⟨10, 2, 1, r"old", 5⟩]⟩ (r"1") (r"2")).1 =
          DeleteResp.deleted (([⟨10, 2, 1, r"old", 5⟩] : List Relation).length -
            (([⟨10, 2, 1, r"old", 5⟩] : List Relation).filter
              (fun r => !(matchPair r 1 2))).length)
       ∧ (deleteEdgeHandler ⟨[], [⟨10, 2, 1, r"old", 5⟩]⟩ (r"1") (r"2")).2.relations =
            ([⟨10, 2, 1, r"old", 5⟩] : List Relation).filter (fun r => !(matchPair r 1 2)))
  ∧ ((∀ r ∈ ([⟨10, 2, 1, r"old", 5⟩] : List Relation), matchPair r 1 2 = false) →
       deleteEdgeHandler ⟨[], [⟨10, 2, 1, r"old", 5⟩]⟩ (r"1") (r"2") =
         (DeleteResp.notFound 1 2, ⟨[], [⟨10, 2, 1, r"old", 5⟩]⟩))
  ∧ (∀ r : Relation,
       ((r.from_person_id = 1 ∧ r.to_person_id = 2) ∨
        (r.from_person_id = 2 ∧ r.to_person_id = 1)) →
       r ∉ (deleteEdgeHandler ⟨[], [⟨10, 2, 1, r"old", 5⟩]⟩ (r"1") (r"2")).2.relations)
  ∧ (deleteEdgeHandler ⟨[], [⟨10, 2, 1, r"old", 5⟩]⟩ (r"1") (r"2")).2.persons = [] :=
  c3_deleteEdge_either_direction ⟨[], [⟨10, 2, 1, r"old", 5⟩]⟩ (r"1") (r"2") 1 2
    (by rfl) (by rfl) (by decide)

/-- C5: adding a person whose (already sanitized) name is stored answers the
409 conflict and leaves the database unchanged; the duplicate lookup compares
the sanitized name for exact string equality. -/
theorem c5_addNode_duplicate_conflict (s : DBState) (name : String)
    (description gender : Option String) (newId nowTs : Nat)
    (hclean : sanitizeInput name = name)
    (hdup : ∃ p ∈ s.persons, p.name = name) :
    addNodeHandler s name description gender newId nowTs = (NodeResp.conflict name, s) := by
  obtain ⟨p, hp, hpname⟩ := hdup
  have hmem : p ∈ s.persons.filter (fun q => q.name == name) :=
    List.mem_filter.mpr ⟨hp, by simp [hpname]⟩
  have hpos : 0 < (s.persons.filter (fun q => q.name == name)).length :=
    List.length_pos.mpr (List.ne_nil_of_mem hmem)
  simp only [addNodeHandler, hclean]
  rw [if_pos hpos]

/-- C5 witness: re-adding the stored name Alice. -/
theorem c5_addNode_duplicate_conflict_witness :
    addNodeHandler ⟨[⟨1, r"Alice", r"", r"female", 0⟩], []⟩ (r"Alice") none none 9 9 =
      (NodeResp.conflict (r"Alice"), ⟨[⟨1, r"Alice", r"", r"female", 0⟩], []⟩) :=
  c5_addNode_duplicate_conflict ⟨[⟨1, r"Alice", r"", r"female", 0⟩], []⟩ (r"Alice") none none 9 9
    (by rfl) ⟨⟨1, r"Alice", r"", r"female", 0⟩, by decide, rfl⟩

/-- C4 counterexample state: person 1 exists with an empty (sanitized-away)
name — reachable through POST /api/addNode with a tag-only name — and is an
endpoint of the stored relation, yet the graph projection omits it. -/
def graphExState : DBState :=
  ⟨[⟨1, r"", r"", r"unknown", 0⟩, ⟨2, r"Bob", r"", r"unknown", 0⟩], [⟨1, 1, 2, r"", 0⟩]⟩

/-- C4 counterexample: person 1 appears as an endpoint of a relation but is
not in the nodes list, so the projection does not contain exactly the persons
that are endpoints of relations. -/
theorem c4_graph_exactness_fails :
    (∃ p ∈ graphExState.persons, p.id = 1)
  ∧ (∃ r ∈ graphExState.relations, r.from_person_id = 1 ∨ r.to_person_id = 1)
  ∧ (∀ node ∈ graphNodes graphExState, node.id ≠ 1) := by
  decide

/-- C4 (amended): the nodes list contains exactly the persons with non-zero id
and non-empty name incident to a relation both of whose endpoint ids are
non-zero (exactness stated under the primary-key uniqueness of person ids);
in particular a person with zero incident edges never appears, and with no
relations the projection is empty even when persons exist. -/
theorem c4_graph_connected_only (s : DBState) :
    ((s.persons.map Person.id).Nodup →
      ∀ p ∈ s.persons,
        ((∃ node ∈ graphNodes s, node.id = p.id) ↔
          (p.id ≠ 0 ∧ p.name ≠ (r"") ∧ ∃ r ∈ s.relations,
             r.from_person_id ≠ 0 ∧ r.to_person_id ≠ 0 ∧
             (r.from_person_id = p.id ∨ r.to_person_id = p.id))))
  ∧ (s.relations = [] → graphNodes s = [] ∧ graphEdges s = [])
  ∧ (∀ p ∈ s.persons,
       (∀ r ∈ s.relations, r.from_person_id ≠ p.id ∧ r.to_person_id ≠ p.id) →
       ∀ node ∈ graphNodes s, node.id ≠ p.id) := by
  refine ⟨?_, ?_, ?_⟩
  · intro hnodup p hp
    constructor
    · rintro ⟨node, hnode, hid⟩
      simp only [graphNodes, List.mem_map] at hnode
      obtain ⟨q, hq, hqnode⟩ := hnode
      have hqmem := (List.mem_filter.mp hq).1
      have hqpred := (List.mem_filter.mp hq).2
      simp only [Bool.and_eq_true, bne_iff_ne, ne_eq] at hqpred
      have hqid : q.id = p.id := by
        rw [← hid, ← hqnode]
      have hqp : q = p := List.inj_on_of_nodup_map hnodup hqmem hp hqid
      subst hqp
      refine ⟨hqpred.1.1, hqpred.1.2, ?_⟩
      have hconn := hqpred.2
      simp only [isConnectedId, List.any_eq_true, Bool.or_eq_true, beq_iff_eq] at hconn
      obtain ⟨r, hr, hdir⟩ := hconn
      have hrmem := (List.mem_filter.mp hr).1
      have hrpred := (List.mem_filter.mp hr).2
      simp only [Bool.and_eq_true, bne_iff_ne, ne_eq] at hrpred
      exact ⟨r, hrmem, hrpred.1, hrpred.2, by tauto⟩
    · rintro ⟨hid, hname, r, hr, hf0, ht0, hdir⟩
      refine ⟨⟨p.id, p.name⟩, ?_, rfl⟩
      simp only [graphNodes, List.mem_map]
      refine ⟨p, ?_, rfl⟩
      refine List.mem_filter.mpr ⟨hp, ?_⟩
      simp only [Bool.and_eq_true, bne_iff_ne, ne_eq]
      refine ⟨⟨hid, hname⟩, ?_⟩
      simp only [isConnectedId, List.any_eq_true, Bool.or_eq_true, beq_iff_eq]
      refine ⟨r, ?_, by tauto⟩
      refine List.mem_filter.mpr ⟨hr, ?_⟩
      simp only [Bool.and_eq_true, bne_iff_ne, ne_eq]
      exact ⟨hf0, ht0⟩
  · intro h
    constructor
    · rw [List.eq_nil_iff_forall_not_mem]
      intro node hnode
      simp only [graphNodes, List.mem_map] at hnode
      obtain ⟨q, hq, _⟩ := hnode
      have hqpred := (List.mem_filter.mp hq).2
      simp only [Bool.and_eq_true] at hqpred
      have hconn := hqpred.2
      rw [h] at hconn
      simp [isConnectedId, validRelations] at hconn
    · rw [graphEdges, h]
      rfl
  · intro p hp hnone node hnode hid
    simp only [graphNodes, List.mem_map] at hnode
    obtain ⟨q, hq, hqnode⟩ := hnode
    have hqpred := (List.mem_filter.mp hq).2
    simp only [Bool.and_eq_true] at hqpred
    have hconn := hqpred.2
    simp only [isConnectedId, List.any_eq_true, Bool.or_eq_true, beq_iff_eq] at hconn
    obtain ⟨r, hr, hdir⟩ := hconn
    have hrmem := (List.mem_filter.mp hr).1
    have hqid : q.id = p.id := by
      rw [← hid, ← hqnode]
    rw [hqid] at hdir
    rcases hdir with h1 | h1
    · exact (hnone r hrmem).1 h1
    · exact (hnone r hrmem).2 h1

/-- C4 witness: with persons present and no relations at all the projection
has empty nodes and empty edges. -/
theorem c4_graph_connected_only_witness :
    graphNodes ⟨[⟨1, r"Ann", r"", r"unknown", 0⟩], []⟩ = [] ∧
    graphEdges ⟨[⟨1, r"Ann", r"", r"unknown", 0⟩], []⟩ = [] :=
  (c4_graph_connected_only ⟨[⟨1, r"Ann", r"", r"unknown", 0⟩], []⟩).2.1 rfl

/-- C6: the validator runs every applicable check family — required, types,
maxLength, numberRange — and collects a message for every violated rule across
all fields into one details list; the request passes exactly when that list is
empty and otherwise the single 400 response carries the full list. -/
theorem c6_validateInput_collects_all (schema : Schema) (body : Body) :
    (∀ f ∈ schema.required, isMissing (bodyGet body f) = true →
       VErr.missingRequired f ∈ validateInputErrors schema body)
  ∧ (∀ ft ∈ schema.types, ∀ v, bodyGet body ft.1 = some v → typeofJS v ≠ ft.2 →
       VErr.typeMismatch ft.1 ft.2 (typeofJS v) ∈ validateInputErrors schema body)
  ∧ (∀ fm ∈ schema.maxLength, ∀ str, bodyGet body fm.1 = some (JSValue.str str) →
       str ≠ (r"") → fm.2 < str.length →
       VErr.tooLong fm.1 fm.2 ∈ validateInputErrors schema body)
  ∧ (∀ fr ∈ schema.numberRange, ∀ v, bodyGet body fr.1 = some v →
       ((jsToNumber v = none → VErr.notANumber fr.1 ∈ validateInputErrors schema body)
      ∧ (∀ q, jsToNumber v = some q → outOfRangeQ fr.2 q = true →
          VErr.outOfRange fr.1 ∈ validateInputErrors schema body)))
  ∧ (validateInput schema body = ValidateResp.pass ↔ validateInputErrors schema body = [])
  ∧ (validateInputErrors schema body ≠ [] →
       validateInput schema body = ValidateResp.reject (validateInputErrors schema body)) := by
  refine ⟨?_, ?_, ?_, ?_, ?_, ?_⟩
  · intro f hf hmiss
    have hm : VErr.missingRequired f ∈ requiredErrors schema body :=
      List.mem_filterMap.mpr ⟨f, hf, by simp [hmiss]⟩
    simp only [validateInputErrors, List.mem_append]
    exact Or.inl (Or.inl (Or.inl hm))
  · intro ft hft v hv hneq
    have hm : VErr.typeMismatch ft.1 ft.2 (typeofJS v) ∈ typeErrors schema body :=
      List.mem_filterMap.mpr ⟨ft, hft, by rw [hv]; simp [hneq]⟩
    simp only [validateInputErrors, List.mem_append]
    exact Or.inl (Or.inl (Or.inr hm))
  · intro fm hfm str hv hstr hlen
    have hm : VErr.tooLong fm.1 fm.2 ∈ maxLengthErrors schema body :=
      List.mem_filterMap.mpr ⟨fm, hfm, by rw [hv]; simp [hstr, hlen]⟩
    simp only [validateInputErrors, List.mem_append]
    exact Or.inl (Or.inr hm)
  · intro fr hfr v hv
    constructor
    · intro hn
      have hm : VErr.notANumber fr.1 ∈ rangeErrors schema body :=
        List.mem_filterMap.mpr ⟨fr, hfr, by rw [hv]; simp only []; rw [hn]⟩
      simp only [validateInputErrors, List.mem_append]
      exact Or.inr hm
    · intro q hq hout
      have hm : VErr.outOfRange fr.1 ∈ rangeErrors schema body :=
        List.mem_filterMap.mpr ⟨fr, hfr, by rw [hv]; simp only []; rw [hq]; simp [hout]⟩
      simp only [validateInputErrors, List.mem_append]
      exact Or.inr hm
  · by_cases he : validateInputErrors schema body = []
    · simp [validateInput, he]
    · have hpos := List.length_pos.mpr he
      simp only [validateInput]
      rw [if_pos hpos]
      simp [he]
  · intro hne
    have hpos := List.length_pos.mpr hne
    simp only [validateInput]
    rw [if_pos hpos]

/-- C6 witness: a body that violates a required rule and a range rule at once;
both messages are collected. -/
theorem c6_validateInput_collects_all_witness :
    VErr.missingRequired (r"name") ∈
      validateInputErrors ⟨[r"name"], [(r"name", r"string")], [],
        [(r"n", ⟨some 1, some 10⟩)]⟩ [(r"n", JSValue.num 0)]
  ∧ VErr.outOfRange (r"n") ∈
      validateInputErrors ⟨[r"name"], [(r"name", r"string")], [],
        [(r"n", ⟨some 1, some 10⟩)]⟩ [(r"n", JSValue.num 0)] :=
  ⟨(c6_validateInput_collects_all ⟨[r"name"], [(r"name", r"string")], [],
      [(r"n", ⟨some 1, some 10⟩)]⟩ [(r"n", JSValue.num 0)]).1 (r"name")
      (by decide) (by rfl),
   ((c6_validateInput_collects_all ⟨[r"name"], [(r"name", r"string")], [],
      [(r"n", ⟨some 1, some 10⟩)]⟩ [(r"n", JSValue.num 0)]).2.2.2.1 (r"n", ⟨some 1, some 10⟩)
      (by decide) (JSValue.num 0) (by rfl)).2 0 (by rfl) (by decide)⟩

/-- C7 counterexample: window 60000 ms, ceiling 1; the client's only recorded
timestamp is 0 and the request arrives at 30000 ms, so the oldest timestamp
leaves the sliding window after 30 seconds — but the 429 carries
retryAfter 60, the full window length. -/
theorem c7_retryAfter_constant_counterexample :
    (rateLimitStep 60000 1 [((r"c"), [0])] (r"c") 30000).1 = RLResp.limited 60
  ∧ (0 + 60000 - 30000 + 999) / 1000 = 30
  ∧ (60 : Nat) ≠ 30 := by
  decide

/-- C7 (amended): whenever the rate limiter replies 429, the retryAfter field
is the constant ceil(windowMs/1000) — the full window length in seconds —
independent of the client's recorded timestamps. -/
theorem c7_retryAfter_full_window (windowMs maxRequests : Nat)
    (requests : List (String × List Nat)) (clientId : String) (now : Nat) :
    ∀ ra, (rateLimitStep windowMs maxRequests requests clientId now).1 = RLResp.limited ra →
      ra = (windowMs + 999) / 1000 := by
  intro ra h
  simp only [rateLimitStep] at h
  split at h <;> split at h <;>
    first
      | exact (RLResp.limited.inj h).symm
      | exact RLResp.noConfusion h

/-- C7 witness for the amended claim. -/
theorem c7_retryAfter_full_window_witness :
    (60 : Nat) = (60000 + 999) / 1000 :=
  c7_retryAfter_full_window 60000 1 [((r"c"), [0])] (r"c") 30000 60 (by decide)

/-- C8 counterexample: POST /api/admin/logout carries no session middleware —
a request without any token, or with a token that was never issued, still
answers success rather than a 401. -/
theorem c8_logout_no_auth_counterexample :
    logoutHandler [] none = (LogoutResp.success, [])
  ∧ logoutHandler [] (some (r"deadbeef")) = (LogoutResp.success, []) := by
  decide

/-- C8 (amended): logout does not require a valid session token and always
answers success; supplying a non-empty token deletes it from the session
store, after which `requireAdminSession` (the guard of GET /api/admin/verify)
rejects that token with the 401 invalid-session response. -/
theorem c8_logout_invalidates_token (sessions : List (String × Session))
    (token : Option String) (t : String) (now : Nat) (ht : t ≠ (r"")) :
    (logoutHandler sessions token).1 = LogoutResp.success
  ∧ (logoutHandler sessions (some t)).2 = sessions.filter (fun q => q.1 != t)
  ∧ (requireAdminSession ((logoutHandler sessions (some t)).2) (some t) now).1 =
      AuthResp.invalidSession := by
  have htb : (t == (r"")) = false := by
    rw [beq_eq_false_iff_ne]
    exact ht
  have hstate : (logoutHandler sessions (some t)).2 = sessions.filter (fun q => q.1 != t) := by
    simp only [logoutHandler, htb, Bool.false_eq_true, if_false]
  refine ⟨?_, hstate, ?_⟩
  · cases token with
    | none => rfl
    | some u =>
      by_cases hu : (u == (r"")) = true
      · simp only [logoutHandler, hu, if_true]
      · simp only [logoutHandler, hu, Bool.false_eq_true, if_false]
  · have hfind : ((sessions.filter (fun q => q.1 != t)).find? (fun p => p.1 == t)) = none := by
      rw [List.find?_eq_none]
      intro x hx
      have hxt := (List.mem_filter.mp hx).2
      simp only [bne_iff_ne, ne_eq] at hxt
      simp [hxt]
    rw [hstate]
    simp only [requireAdminSession, htb, Bool.false_eq_true, if_false, hfind]

/-- C8 witness for the amended claim: logging out the issued token makes the
subsequent verify check answer 401. -/
theorem c8_logout_invalidates_token_witness :
    (logoutHandler [((r"tok"), ⟨r"admin", 0⟩)] (some (r"tok"))).1 = LogoutResp.success
  ∧ (logoutHandler [((r"tok"), ⟨r"admin", 0⟩)] (some (r"tok"))).2 =
      ([((r"tok"), ⟨r"admin", 0⟩)] : List (String × Session)).filter (fun q => q.1 != (r"tok"))
  ∧ (requireAdminSession ((logoutHandler [((r"tok"), ⟨r"admin", 0⟩)] (some (r"tok"))).2)
      (some (r"tok")) 5).1 = AuthResp.invalidSession :=
  c8_logout_invalidates_token [((r"tok"), ⟨r"admin", 0⟩)] (some (r"tok")) (r"tok") 5 (by decide)

end SR
